import Mathlib

/-!
Verification development for the face-recognition attendance application
(single source file `main.py`).  The definitions below are a shallow
embedding of the program's data model and operations:

* the per-identity cooldown gate of the camera loop (`camera_hit`),
* the Google-Form dispatch worker (`submit_to_google_form`),
* the LBPH training scan and its label map (`train_scan`, `train_recognizer`),
* the sample-capture session (`capture_samples`, `capture_loop`),
* the OTP issue/resend/verify state machine (`stepOtp`, `verifyOk`),
* the non-atomic `(recognizer, label_map)` swap (`swap_step`, `run_swap`).

Python floats carrying `time.time()` values are modelled as integers
(only order and subtraction matter to the code), dictionaries as
functions into `Option`, the on-disk sample directory as a list of file
names, and raster images as opaque tokens (`Image := Nat`) since no
checked property inspects pixel data.
-/

/-- Raster images are opaque to every property checked here. -/
abbrev Image : Type := Nat

/-- `RECOGNITION_INTERVAL: int = 5 * 60` — seconds between repeated
recognitions of the same face (the spec's COOLDOWN_WINDOW). -/
def RECOGNITION_INTERVAL : Int := 5 * 60

/-- `self.last_seen_time: Dict[str, float]` — employee id to the time of
the last dispatched recognition. -/
abbrev CooldownTable : Type := String → Option Int

/-- The recognised-face branch of `_camera_loop` (lines 369-385):
`last_seen = self.last_seen_time.get(emp_id, 0)`; when
`now - last_seen > RECOGNITION_INTERVAL` the table entry is set to `now`
and the attendance worker is started (second component `true`). -/
def camera_hit (last_seen_time : CooldownTable) (emp_id : String) (now : Int) :
    CooldownTable × Bool :=
  let last_seen : Int := (last_seen_time emp_id).getD 0
  if now - last_seen > RECOGNITION_INTERVAL then
    (Function.update last_seen_time emp_id (some now), true)
  else
    (last_seen_time, false)

/-- Exceptions of the `requests` library that `_submit_to_google_form`
handles (`Timeout` and `ConnectionError` are subclasses of
`RequestException`; the handlers appear in this order). -/
inductive PyExc : Type
  | timeout
  | connectionError
  | requestException
deriving DecidableEq

/-- Outcome of `session.post(...)` as seen by the dispatch worker. -/
inductive HttpResult : Type
  | response (status : Nat)
  | timeout
  | connectionError
  | requestError
deriving DecidableEq

/-- The observer-surface notification emitted by the dispatch worker. -/
inductive SubmitReport : Type
  | successMsg
  | warningPopup (status : Nat)
  | timeoutPopup
  | connectionPopup
  | errorPopup
deriving DecidableEq

/-- `session.post(GOOGLE_FORM_POST_URL, ...)`: returns the status code or
raises one of the handled `requests` exceptions. -/
def session_post : HttpResult → Except PyExc Nat
  | .response s => .ok s
  | .timeout => .error .timeout
  | .connectionError => .error .connectionError
  | .requestError => .error .requestException

/-- `_submit_to_google_form` (lines 764-816).  The worker never touches
`self.last_seen_time`; we therefore thread the cooldown table through
unchanged.  `if resp.status_code in (200, 302)` reports success, any
other status a warning popup; the three `except` clauses turn the
handled exceptions into error popups.  A result of `.error` would mean
an exception escaped the worker. -/
def submit_to_google_form (net : HttpResult) (last_seen_time : CooldownTable) :
    Except PyExc (CooldownTable × SubmitReport) :=
  match session_post net with
  | .ok s =>
      if s = 200 || s = 302 then .ok (last_seen_time, .successMsg)
      else .ok (last_seen_time, .warningPopup s)
  | .error .timeout => .ok (last_seen_time, .timeoutPopup)
  | .error .connectionError => .ok (last_seen_time, .connectionPopup)
  | .error .requestException => .ok (last_seen_time, .errorPopup)

/-- The claim's success class: 2xx or redirect-class (3xx) status. -/
def spec_success_class (s : Nat) : Bool :=
  (200 ≤ s && s < 300) || (300 ≤ s && s < 400)

/-- The all-`none` cooldown table (fresh process state). -/
def empty_table : CooldownTable := fun _ => none

/-- Reduction of `camera_hit` when the cooldown has expired. -/
theorem camera_hit_pos (t : CooldownTable) (id : String) (now : Int)
    (h : now - (t id).getD 0 > RECOGNITION_INTERVAL) :
    camera_hit t id now = (Function.update t id (some now), true) := by
  simp [camera_hit, h]

/-- Reduction of `camera_hit` inside the cooldown window. -/
theorem camera_hit_neg (t : CooldownTable) (id : String) (now : Int)
    (h : ¬ now - (t id).getD 0 > RECOGNITION_INTERVAL) :
    camera_hit t id now = (t, false) := by
  simp [camera_hit, h]

/-- C1: a recognised hit launches the attendance worker iff no entry
exists for the employee id or `now - last_dispatch_time` exceeds
`RECOGNITION_INTERVAL` (300 s); the table entry is set to `now` in the
same step that launches the worker; and a second trigger for the same id
within the window never launches a second worker — at most one external
submission attempt results.  The hypothesis `RECOGNITION_INTERVAL < now`
holds in every real run since `now` is a Unix `time.time()` value. -/
theorem camera_hit_cooldown (t : CooldownTable) (id : String) (now now2 : Int)
    (hnow : RECOGNITION_INTERVAL < now) (horder : now ≤ now2)
    (hwin : now2 - now ≤ RECOGNITION_INTERVAL) :
    ((camera_hit t id now).2 = true ↔
      (t id = none ∨ ∃ l, t id = some l ∧ now - l > RECOGNITION_INTERVAL))
    ∧ ((camera_hit t id now).2 = true → (camera_hit t id now).1 id = some now)
    ∧ ¬((camera_hit t id now).2 = true ∧
        (camera_hit (camera_hit t id now).1 id now2).2 = true) := by
  by_cases hc : now - (t id).getD 0 > RECOGNITION_INTERVAL
  · rw [camera_hit_pos t id now hc]
    refine ⟨?_, ?_, ?_⟩
    · simp only [true_iff]
      cases h : t id with
      | none => exact Or.inl rfl
      | some l =>
          refine Or.inr ⟨l, rfl, ?_⟩
          rw [h] at hc
          simpa using hc
    · intro _
      simp [Function.update_same]
    · rintro ⟨-, h2⟩
      have hupd : (Function.update t id (some now) : CooldownTable) id = some now :=
        Function.update_same id (some now) t
      have hc2 : ¬ now2 - ((Function.update t id (some now) : CooldownTable) id).getD 0
          > RECOGNITION_INTERVAL := by
        rw [hupd]
        simp only [Option.getD_some]
        omega
      rw [camera_hit_neg _ id now2 hc2] at h2
      exact Bool.false_ne_true h2
  · rw [camera_hit_neg t id now hc]
    refine ⟨?_, ?_, ?_⟩
    · simp only [Bool.false_eq_true, false_iff]
      rintro (h | ⟨l, hl, hgt⟩)
      · rw [h] at hc
        simp only [Option.getD_none] at hc
        omega
      · rw [hl] at hc
        simp only [Option.getD_some] at hc
        omega
    · intro h
      exact absurd h (by simp)
    · rintro ⟨h1, -⟩
      exact Bool.false_ne_true h1

/-- Witness for `camera_hit_cooldown` at a concrete state: fresh table,
first trigger at time 1000, second at 1200 (within the 300 s window). -/
theorem camera_hit_cooldown_witness :
    ((camera_hit empty_table "E1" 1000).2 = true ↔
      (empty_table "E1" = none ∨
        ∃ l, empty_table "E1" = some l ∧ 1000 - l > RECOGNITION_INTERVAL))
    ∧ ((camera_hit empty_table "E1" 1000).2 = true →
        (camera_hit empty_table "E1" 1000).1 "E1" = some 1000)
    ∧ ¬((camera_hit empty_table "E1" 1000).2 = true ∧
        (camera_hit (camera_hit empty_table "E1" 1000).1 "E1" 1200).2 = true) :=
  camera_hit_cooldown empty_table "E1" 1000 1200 (by decide) (by decide) (by decide)

/-- C5: whatever the network outcome, the dispatch worker returns
normally (no exception escapes), leaves the cooldown table exactly as it
was when the worker was launched — so the entry still holds the
timestamp `camera_hit` wrote before launching it — and surfaces a
warning or error notification for every non-success outcome. -/
theorem submit_preserves_cooldown (net : HttpResult) (t : CooldownTable)
    (id : String) (now : Int)
    (hfired : (camera_hit t id now).2 = true) :
    ∃ rep, submit_to_google_form net (camera_hit t id now).1
        = .ok ((camera_hit t id now).1, rep)
      ∧ (camera_hit t id now).1 id = some now
      ∧ (∀ s, net = .response s → ¬(s = 200 ∨ s = 302) → rep = .warningPopup s)
      ∧ (net = .timeout → rep = .timeoutPopup)
      ∧ (net = .connectionError → rep = .connectionPopup)
      ∧ (net = .requestError → rep = .errorPopup) := by
  have hentry : (camera_hit t id now).1 id = some now := by
    by_cases hc : now - (t id).getD 0 > RECOGNITION_INTERVAL
    · rw [camera_hit_pos t id now hc]
      exact Function.update_same id (some now) t
    · rw [camera_hit_neg t id now hc] at hfired
      exact absurd hfired (by simp)
  cases net with
  | response s =>
      by_cases hs : (decide (s = 200) || decide (s = 302)) = true
      · refine ⟨.successMsg, ?_, hentry, ?_, ?_, ?_, ?_⟩
        · simp [submit_to_google_form, session_post, hs]
        · intro s' he hne
          cases he
          exact absurd (by simpa using hs) hne
        · intro h
          exact HttpResult.noConfusion h
        · intro h
          exact HttpResult.noConfusion h
        · intro h
          exact HttpResult.noConfusion h
      · refine ⟨.warningPopup s, ?_, hentry, ?_, ?_, ?_, ?_⟩
        · rw [Bool.not_eq_true] at hs
          simp [submit_to_google_form, session_post, hs]
        · intro s' he hne
          cases he
          rfl
        · intro h
          exact HttpResult.noConfusion h
        · intro h
          exact HttpResult.noConfusion h
        · intro h
          exact HttpResult.noConfusion h
  | timeout =>
      refine ⟨.timeoutPopup, rfl, hentry, ?_, fun _ => rfl, ?_, ?_⟩
      · intro s h
        exact HttpResult.noConfusion h
      · intro h
        exact HttpResult.noConfusion h
      · intro h
        exact HttpResult.noConfusion h
  | connectionError =>
      refine ⟨.connectionPopup, rfl, hentry, ?_, ?_, fun _ => rfl, ?_⟩
      · intro s h
        exact HttpResult.noConfusion h
      · intro h
        exact HttpResult.noConfusion h
      · intro h
        exact HttpResult.noConfusion h
  | requestError =>
      refine ⟨.errorPopup, rfl, hentry, ?_, ?_, ?_, fun _ => rfl⟩
      · intro s h
        exact HttpResult.noConfusion h
      · intro h
        exact HttpResult.noConfusion h
      · intro h
        exact HttpResult.noConfusion h

/-- Witness for `submit_preserves_cooldown`: an HTTP 500 response after a
fresh dispatch at time 1000. -/
theorem submit_preserves_cooldown_witness :
    ∃ rep, submit_to_google_form (.response 500) (camera_hit empty_table "E1" 1000).1
        = .ok ((camera_hit empty_table "E1" 1000).1, rep)
      ∧ (camera_hit empty_table "E1" 1000).1 "E1" = some 1000
      ∧ (∀ s, HttpResult.response 500 = .response s → ¬(s = 200 ∨ s = 302) →
          rep = .warningPopup s)
      ∧ (HttpResult.response 500 = .timeout → rep = .timeoutPopup)
      ∧ (HttpResult.response 500 = .connectionError → rep = .connectionPopup)
      ∧ (HttpResult.response 500 = .requestError → rep = .errorPopup) :=
  submit_preserves_cooldown (.response 500) empty_table "E1" 1000 (by decide)

/-- C6 counterexample: HTTP 201 is a 2xx status, yet the worker reports
it as a warning, not a success — the code accepts exactly 200 and 302. -/
theorem submit_success_class_counterexample :
    spec_success_class 201 = true
    ∧ submit_to_google_form (.response 201) empty_table
        = .ok (empty_table, .warningPopup 201)
    ∧ SubmitReport.warningPopup 201 ≠ SubmitReport.successMsg := by
  refine ⟨by decide, rfl, by decide⟩

/-- C6 (amended): the submission is classified a success iff the status
is exactly 200 or 302; every other status yields a non-fatal warning
popup, and timeout / connection / request errors yield non-fatal error
notices — in all cases the worker returns normally. -/
theorem submit_success_iff_200_or_302 (t : CooldownTable) :
    (∀ s, submit_to_google_form (.response s) t = .ok (t, .successMsg) ↔
      (s = 200 ∨ s = 302))
    ∧ (∀ s, ¬(s = 200 ∨ s = 302) →
        submit_to_google_form (.response s) t = .ok (t, .warningPopup s))
    ∧ submit_to_google_form .timeout t = .ok (t, .timeoutPopup)
    ∧ submit_to_google_form .connectionError t = .ok (t, .connectionPopup)
    ∧ submit_to_google_form .requestError t = .ok (t, .errorPopup) := by
  refine ⟨?_, ?_, rfl, rfl, rfl⟩
  · intro s
    constructor
    · intro h
      by_cases hs : (decide (s = 200) || decide (s = 302)) = true
      · simpa using hs
      · rw [Bool.not_eq_true] at hs
        simp only [submit_to_google_form, session_post, hs, Bool.false_eq_true,
          if_false] at h
        simp at h
    · intro h
      have hs : (s = 200 || s = 302) = true := by
        rcases h with h | h <;> simp [h]
      simp [submit_to_google_form, session_post, hs]
  · intro s hs
    have hs' : (s = 200 || s = 302) = false := by
      simp only [Bool.or_eq_false_iff, decide_eq_false_iff_not]
      exact ⟨fun h => hs (Or.inl h), fun h => hs (Or.inr h)⟩
    simp [submit_to_google_form, session_post, hs']

/-- Witness for `submit_success_iff_200_or_302` on the empty table,
instantiating the warning clause at status 500. -/
theorem submit_success_iff_200_or_302_witness :
    (submit_to_google_form (.response 302) empty_table
        = .ok (empty_table, .successMsg) ↔ ((302 : Nat) = 200 ∨ (302 : Nat) = 302))
    ∧ submit_to_google_form (.response 500) empty_table
        = .ok (empty_table, .warningPopup 500)
    ∧ submit_to_google_form .timeout empty_table = .ok (empty_table, .timeoutPopup) :=
  ⟨(submit_success_iff_200_or_302 empty_table).1 302,
   (submit_success_iff_200_or_302 empty_table).2.1 500 (by decide),
   (submit_success_iff_200_or_302 empty_table).2.2.1⟩

/-- Little-endian decimal digits of `n` (fuel-recursive so that it
reduces in the kernel); `digits10_rev n n` is exact for every `n`. -/
def digits10_rev : Nat → Nat → List Nat
  | _, 0 => []
  | 0, _ + 1 => []
  | f + 1, n + 1 => (n + 1) % 10 :: digits10_rev f ((n + 1) / 10)

/-- Value of a little-endian decimal digit list. -/
def of_digits10 : List Nat → Nat
  | [] => 0
  | d :: ds => d + 10 * of_digits10 ds

theorem digits10_rev_lt (f n : Nat) : ∀ d ∈ digits10_rev f n, d < 10 := by
  induction f generalizing n with
  | zero => cases n <;> simp [digits10_rev]
  | succ f ih =>
      cases n with
      | zero => simp [digits10_rev]
      | succ n =>
          intro d hd
          simp only [digits10_rev, List.mem_cons] at hd
          rcases hd with h | h
          · subst h
            exact Nat.mod_lt _ (by norm_num)
          · exact ih _ d h

theorem of_digits10_digits10_rev (f n : Nat) (h : n ≤ f) :
    of_digits10 (digits10_rev f n) = n := by
  induction f generalizing n with
  | zero =>
      have hn : n = 0 := Nat.le_zero.mp h
      subst hn
      rfl
  | succ f ih =>
      cases n with
      | zero => rfl
      | succ n =>
          have hdiv : (n + 1) / 10 ≤ f := by
            have h1 : (n + 1) / 10 < n + 1 := Nat.div_lt_self (by omega) (by norm_num)
            omega
          simp only [digits10_rev, of_digits10, ih _ hdiv]
          omega

/-- Number of decimal digits: `10^k ≤ n < 10^(k+1)` gives length `k+1`. -/
theorem digits10_rev_length (k : Nat) : ∀ f n, n ≤ f → 10 ^ k ≤ n → n < 10 ^ (k + 1) →
    (digits10_rev f n).length = k + 1 := by
  induction k with
  | zero =>
      intro f n hf h1 h2
      simp only [pow_zero, pow_one] at h1 h2
      cases n with
      | zero => omega
      | succ n =>
          cases f with
          | zero => omega
          | succ f =>
              have hdiv : (n + 1) / 10 = 0 := Nat.div_eq_of_lt h2
              simp [digits10_rev, hdiv]
  | succ k ih =>
      intro f n hf h1 h2
      have hn1 : 10 ≤ n := le_trans (by calc 10 = 10 ^ 1 := (pow_one 10).symm
        _ ≤ 10 ^ (k + 1) := Nat.pow_le_pow_right (by norm_num) (by omega)) h1
      cases n with
      | zero => omega
      | succ n =>
          cases f with
          | zero => omega
          | succ f =>
          have hlow : 10 ^ k ≤ (n + 1) / 10 := by
            rw [Nat.le_div_iff_mul_le (by norm_num)]
            calc 10 ^ k * 10 = 10 ^ (k + 1) := (pow_succ 10 k).symm
              _ ≤ n + 1 := h1
          have hhigh : (n + 1) / 10 < 10 ^ (k + 1) := by
            rw [Nat.div_lt_iff_lt_mul (by norm_num)]
            calc n + 1 < 10 ^ (k + 1 + 1) := h2
              _ = 10 ^ (k + 1) * 10 := pow_succ 10 (k + 1)
          have hfuel : (n + 1) / 10 ≤ f := by
            have : (n + 1) / 10 < n + 1 := Nat.div_lt_self (by omega) (by norm_num)
            omega
          simp only [digits10_rev, List.length_cons, ih f ((n + 1) / 10) hfuel hlow hhigh]

/-- The decimal character of a digit (`'0'` has code point 48). -/
def digit_char (d : Nat) : Char := Char.ofNat (48 + d)

/-- Model of Python `str(n)` for a non-negative integer: the decimal
digit characters, most significant first, with `str(0) = "0"`. -/
def py_str (n : Nat) : String :=
  if n = 0 then "0" else String.mk ((digits10_rev n n).reverse.map digit_char)

/-- Model of Python `f"{n:03d}"`: left-pad the decimal string with `'0'`
to width 3. -/
def fmt03d (n : Nat) : String :=
  String.mk (List.replicate (3 - (py_str n).length) '0') ++ py_str n

/-- Numeric value of a digit character. -/
def char_val (c : Char) : Nat := c.toNat - 48

/-- Decode a most-significant-first decimal character list. -/
def dec_data (l : List Char) : Nat := of_digits10 ((l.map char_val).reverse)

theorem char_val_digit_char (d : Nat) (h : d < 10) : char_val (digit_char d) = d := by
  interval_cases d <;> decide

theorem digit_char_isDigit (d : Nat) (h : d < 10) : (digit_char d).isDigit = true := by
  interval_cases d <;> decide

theorem dec_data_py_str (n : Nat) : dec_data (py_str n).data = n := by
  by_cases h : n = 0
  · subst h
    decide
  · rw [py_str, if_neg h]
    show dec_data ((digits10_rev n n).reverse.map digit_char) = n
    unfold dec_data
    rw [List.map_map]
    have hmap : (digits10_rev n n).reverse.map (char_val ∘ digit_char)
        = (digits10_rev n n).reverse.map id := by
      apply List.map_congr_left
      intro d hd
      rw [List.mem_reverse] at hd
      exact char_val_digit_char d (digits10_rev_lt n n d hd)
    rw [hmap, List.map_id, List.reverse_reverse]
    exact of_digits10_digits10_rev n n le_rfl

theorem py_str_injective : Function.Injective py_str := by
  intro a b h
  have := congrArg (fun s => dec_data s.data) h
  simpa only [dec_data_py_str] using this

theorem of_digits10_append_zeros (l : List Nat) (k : Nat) :
    of_digits10 (l ++ List.replicate k 0) = of_digits10 l := by
  induction l with
  | nil =>
      simp only [List.nil_append, of_digits10]
      induction k with
      | zero => rfl
      | succ k ih => simpa [List.replicate_succ, of_digits10] using ih
  | cons d ds ih => simp [of_digits10, ih]

theorem dec_data_fmt03d (n : Nat) : dec_data (fmt03d n).data = n := by
  have hdata : (fmt03d n).data
      = List.replicate (3 - (py_str n).length) '0' ++ (py_str n).data := rfl
  unfold dec_data
  rw [hdata, List.map_append, List.reverse_append]
  have hrep : (List.replicate (3 - (py_str n).length) '0').map char_val
      = List.replicate (3 - (py_str n).length) 0 := by
    rw [List.map_replicate]
    rfl
  rw [hrep, List.reverse_replicate, of_digits10_append_zeros]
  exact dec_data_py_str n

theorem fmt03d_injective : Function.Injective fmt03d := by
  intro a b h
  have := congrArg (fun s => dec_data s.data) h
  simpa only [dec_data_fmt03d] using this

/-- The OTP-related application state: `self.otp_storage: Dict[str, str]`
and `self.pending_names: Dict[str, Optional[str]]` (an absent key and a
stored `None` are indistinguishable to `dict.get`, so both map to
`none`). -/
structure OtpState where
  otp_storage : String → Option String
  pending_names : String → Option String

/-- The UI events that touch OTP state: `_send_otp_flow` (lines 588-593)
stores a fresh code and the pending name; the `_resend` handler
(lines 638-645) stores a fresh code; a `_verify` press (lines 622-636)
compares the typed text.  The freshly drawn code rides on the event. -/
inductive OtpEvent
  | issue (emp_id : String) (name : Option String) (otp : String)
  | resend (emp_id : String) (otp : String)
  | verifyAttempt (emp_id : String) (text : String)

/-- Effect of one OTP event on the OTP state.  A `_verify` press never
mutates `otp_storage` or `pending_names` (on mismatch it only clears the
text box; on match it starts a capture thread). -/
def stepOtp (st : OtpState) : OtpEvent → OtpState
  | .issue id nm otp =>
      ⟨Function.update st.otp_storage id (some otp),
       Function.update st.pending_names id nm⟩
  | .resend id otp =>
      ⟨Function.update st.otp_storage id (some otp), st.pending_names⟩
  | .verifyAttempt _ _ => st

/-- Run a sequence of OTP events. -/
def runOtp : OtpState → List OtpEvent → OtpState
  | st, [] => st
  | st, e :: es => runOtp (stepOtp st e) es

/-- Model of Python `str.strip()`: remove leading and trailing
whitespace characters. -/
def py_strip (s : String) : String :=
  String.mk (((s.data.dropWhile Char.isWhitespace).reverse.dropWhile
    Char.isWhitespace).reverse)

/-- `otp_input.text.strip() == self.otp_storage.get(emp_id)` — the test
of the `_verify` handler; comparing against an absent entry (`None`) is
always false. -/
def verifyOk (st : OtpState) (emp_id text : String) : Bool :=
  match st.otp_storage emp_id with
  | some code => py_strip text == code
  | none => false

/-- The code an event issues for `id`, if any. -/
def issued_code : OtpEvent → String → Option String
  | .issue i _ c, id => if i = id then some c else none
  | .resend i c, id => if i = id then some c else none
  | .verifyAttempt _ _, _ => none

/-- The most recently issued or resent code for `id` in an event list
(later events override earlier ones). -/
def last_code : List OtpEvent → String → Option String
  | [], _ => none
  | e :: es, id =>
      match last_code es id with
      | some c => some c
      | none => issued_code e id

/-- After any event sequence, the stored code for `id` is the most
recently issued/resent one, or the initial entry if none was issued. -/
theorem runOtp_storage (evs : List OtpEvent) (st : OtpState) (id : String) :
    (runOtp st evs).otp_storage id =
      match last_code evs id with
      | some c => some c
      | none => st.otp_storage id := by
  induction evs generalizing st with
  | nil => rfl
  | cons e es ih =>
      show (runOtp (stepOtp st e) es).otp_storage id = _
      rw [ih (stepOtp st e)]
      cases hlast : last_code es id with
      | some c => simp [last_code, hlast]
      | none =>
          simp only [last_code, hlast]
          cases e with
          | issue i nm otp =>
              by_cases hi : i = id
              · subst hi
                simp [stepOtp, issued_code, Function.update_same]
              · simp [stepOtp, issued_code, hi, Function.update_noteq (Ne.symm hi)]
          | resend i otp =>
              by_cases hi : i = id
              · subst hi
                simp [stepOtp, issued_code, Function.update_same]
              · simp [stepOtp, issued_code, hi, Function.update_noteq (Ne.symm hi)]
          | verifyAttempt i tx => simp [stepOtp, issued_code]

/-- C7: OTP verification succeeds iff the (whitespace-normal) submitted
code equals the stored code, which after any event history is exactly
the most recently issued/reissued code (a reissue overwrites — and
thereby invalidates — the prior code); a verify attempt, matched or not,
mutates no OTP state, so resubmission is unlimited; and with no reissue
in the history the stored code persists — there is no expiry. -/
theorem otp_verify_spec :
    (∀ st id text, py_strip text = text →
      (verifyOk st id text = true ↔ st.otp_storage id = some text))
    ∧ (∀ st evs id c, last_code evs id = some c →
        (runOtp st evs).otp_storage id = some c)
    ∧ (∀ st evs id, last_code evs id = none →
        (runOtp st evs).otp_storage id = st.otp_storage id)
    ∧ (∀ st id text, stepOtp st (.verifyAttempt id text) = st) := by
  refine ⟨?_, ?_, ?_, fun st id text => rfl⟩
  · intro st id text htrim
    unfold verifyOk
    cases hst : st.otp_storage id with
    | none => simp
    | some code =>
        rw [htrim]
        simp only [beq_iff_eq, Option.some.injEq]
        exact ⟨fun h => h.symm, fun h => h.symm⟩
  · intro st evs id c hlast
    rw [runOtp_storage, hlast]
  · intro st evs id hlast
    rw [runOtp_storage, hlast]

/-- A concrete OTP state: the code `111111` stored for `E1`. -/
def otp_state_1 : OtpState :=
  ⟨fun i => if i = "E1" then some "111111" else none, fun _ => none⟩

/-- Witness for `otp_verify_spec`: exact match verifies against
`otp_state_1`; a resend of `222222` overwrites the stored code; a
verify-only history leaves the stored code untouched. -/
theorem otp_verify_spec_witness :
    (verifyOk otp_state_1 "E1" "111111" = true ↔
      otp_state_1.otp_storage "E1" = some "111111")
    ∧ (runOtp otp_state_1 [.resend "E1" "222222"]).otp_storage "E1" = some "222222"
    ∧ (runOtp otp_state_1 [.verifyAttempt "E1" "999999"]).otp_storage "E1"
        = otp_state_1.otp_storage "E1"
    ∧ stepOtp otp_state_1 (.verifyAttempt "E1" "999999") = otp_state_1 :=
  ⟨otp_verify_spec.1 otp_state_1 "E1" "111111" (by decide),
   otp_verify_spec.2.1 otp_state_1 [.resend "E1" "222222"] "E1" "222222" rfl,
   otp_verify_spec.2.2.1 otp_state_1 [.verifyAttempt "E1" "999999"] "E1" rfl,
   otp_verify_spec.2.2.2 otp_state_1 "E1" "999999"⟩

/-- `_generate_otp` (lines 823-826): `str(random.randint(100000, 999999))`,
as a function of the uniform draw `d ∈ [100000, 999999]`. -/
def generate_otp (draw : Nat) : String := py_str draw

/-- C8: every drawable OTP is a 6-character decimal string; the
rendering is injective, so the uniform `randint` draw pushes forward to
a uniform distribution over the code strings; and `_send_otp_flow`
stores the fresh code and bound name, overwriting any prior record for
that employee id. -/
theorem generate_otp_spec :
    (∀ d, 100000 ≤ d → d ≤ 999999 →
      (generate_otp d).length = 6 ∧ ∀ c ∈ (generate_otp d).data, c.isDigit = true)
    ∧ Function.Injective generate_otp
    ∧ (∀ st id nm otp,
        (stepOtp st (.issue id nm otp)).otp_storage id = some otp
        ∧ (stepOtp st (.issue id nm otp)).pending_names id = nm) := by
  refine ⟨?_, py_str_injective, ?_⟩
  · intro d h1 h2
    have hd0 : d ≠ 0 := by omega
    have hrepr : py_str d = String.mk ((digits10_rev d d).reverse.map digit_char) := by
      unfold py_str
      rw [if_neg hd0]
    constructor
    · show (py_str d).length = 6
      rw [hrepr]
      show ((digits10_rev d d).reverse.map digit_char).length = 6
      rw [List.length_map, List.length_reverse]
      exact digits10_rev_length 5 d d le_rfl (by norm_num; omega) (by norm_num; omega)
    · intro c hc
      have hgen : (generate_otp d).data = (digits10_rev d d).reverse.map digit_char := by
        show (py_str d).data = _
        rw [hrepr]
      rw [hgen] at hc
      have hc' : c ∈ (digits10_rev d d).reverse.map digit_char := hc
      rw [List.mem_map] at hc'
      obtain ⟨x, hx, hcx⟩ := hc'
      rw [List.mem_reverse] at hx
      subst hcx
      exact digit_char_isDigit x (digits10_rev_lt d d x hx)
  · intro st id nm otp
    constructor
    · show Function.update st.otp_storage id (some otp) id = some otp
      exact Function.update_same id (some otp) st.otp_storage
    · show Function.update st.pending_names id nm id = nm
      exact Function.update_same id nm st.pending_names

/-- Witness for `generate_otp_spec`: the draw 100000 renders as a
6-digit string and the issue event overwrites `otp_state_1`. -/
theorem generate_otp_spec_witness :
    ((generate_otp 100000).length = 6
      ∧ ∀ c ∈ (generate_otp 100000).data, c.isDigit = true)
    ∧ (stepOtp otp_state_1 (.issue "E1" (some "alice") "654321")).otp_storage "E1"
        = some "654321"
    ∧ (stepOtp otp_state_1 (.issue "E1" (some "alice") "654321")).pending_names "E1"
        = some "alice" :=
  ⟨generate_otp_spec.1 100000 (by decide) (by decide),
   (generate_otp_spec.2.2 otp_state_1 "E1" (some "alice") "654321").1,
   (generate_otp_spec.2.2 otp_state_1 "E1" (some "alice") "654321").2⟩

/-- A directory entry of the known-faces folder: the file name plus the
decoded grayscale raster (`none` models `cv2.imread` returning `None`
for an unreadable file). -/
structure DirFile where
  fname : String
  content : Option Image
deriving DecidableEq

/-- Model of Python `str.lower()` (ASCII case mapping). -/
def lower_str (s : String) : String := String.mk (s.data.map Char.toLower)

/-- Model of Python `str.upper()` (ASCII case mapping). -/
def upper_str (s : String) : String := String.mk (s.data.map Char.toUpper)

/-- Split a character list at every occurrence of `c`, keeping empty
parts — the behaviour of Python `str.split(sep)`. -/
def split_on_char (c : Char) : List Char → List (List Char)
  | [] => [[]]
  | x :: xs =>
      let r := split_on_char c xs
      if x = c then [] :: r
      else
        match r with
        | [] => [[x]]
        | h :: t => (x :: h) :: t

/-- Python `s.split("_")` (every part, in order, empties kept). -/
def py_split (s : String) (c : Char) : List String :=
  (split_on_char c s.data).map String.mk

/-- `file.lower().endswith((".jpg", ".png"))`. -/
def ext_ok (fname : String) : Bool :=
  (".jpg".data.isSuffixOf (lower_str fname).data)
  || (".png".data.isSuffixOf (lower_str fname).data)

/-- `label_map: Dict[int, Tuple[str, str]]` — label to
`(display name, employee id)`, in insertion order. -/
abbrev LabelMap := List (Int × String × String)

/-- One iteration of the `_train_recognizer` listing loop (lines
451-472): skip files without a `.jpg`/`.png` extension, skip names that
do not split into at least `name`, `emp_id` and a rest (the
`ValueError` branch of `file.split("_", 2)`), skip unreadable images;
otherwise lower-case the name, upper-case the employee id and keep the
resized raster. -/
def parse_train_file (resize : Image → Image) (f : DirFile) :
    Option (String × String × Image) :=
  if ext_ok f.fname then
    let parts := py_split f.fname '_'
    if h : 3 ≤ parts.length then
      match f.content with
      | none => none
      | some img =>
          some (lower_str (parts.get ⟨0, by omega⟩),
            upper_str (parts.get ⟨1, by omega⟩), resize img)
    else none
  else none

/-- Lexicographic code-point comparison of character lists — the string
order Python's `sorted` uses. -/
def chars_lt : List Char → List Char → Bool
  | [], [] => false
  | [], _ :: _ => true
  | _ :: _, [] => false
  | x :: xs, y :: ys => if x < y then true else if y < x then false else chars_lt xs ys

/-- Stable insertion of a file into a name-sorted listing. -/
def insert_sorted (f : DirFile) : List DirFile → List DirFile
  | [] => [f]
  | g :: gs =>
      if chars_lt f.fname.data g.fname.data then f :: g :: gs
      else g :: insert_sorted f gs

/-- `sorted(os.listdir(self._known_faces_dir))` — lexicographic by code
point, as Python sorts strings. -/
def sort_files : List DirFile → List DirFile
  | [] => []
  | f :: fs => insert_sorted f (sort_files fs)

/-- The three accumulators of the training loop: `images`, `labels` and
`label_map`, with `label_id` incremented once per accepted file. -/
structure TrainAcc where
  images : List Image
  labels : List Int
  label_map : LabelMap

/-- The `_train_recognizer` listing loop with starting counter
`label_id`: every accepted file appends its raster, receives the next
integer label, and binds that label to its parsed identity. -/
def train_scan (resize : Image → Image) (label_id : Int) : List DirFile → TrainAcc
  | [] => ⟨[], [], []⟩
  | f :: fs =>
      match parse_train_file resize f with
      | none => train_scan resize label_id fs
      | some (nm, eid, img) =>
          let rest := train_scan resize (label_id + 1) fs
          ⟨img :: rest.images, label_id :: rest.labels, (label_id, nm, eid) :: rest.label_map⟩

/-- The recogniser object: `cv2.face.LBPHFaceRecognizer_create()` that
was never trained, or a trained model with its (externally defined)
prediction function. -/
inductive Recognizer : Type
  | untrained
  | trained (predict : Image → Int × Int)

/-- `recogniser.train(images, np.array(labels))` — raises on an empty
sample list, otherwise produces the opaque LBPH predictor (`oracle` is
the out-of-scope classifier). -/
def cv_train (oracle : List Image → List Int → Image → Int × Int)
    (imgs : List Image) (labels : List Int) : Except String (Image → Int × Int) :=
  if imgs.isEmpty then .error "empty training data" else .ok (oracle imgs labels)

/-- `_train_recognizer` (lines 444-483): scan the sorted listing, then
train only `if images:`; with no images the untrained recogniser and
the (empty) label map are returned unchanged. -/
def train_recognizer (oracle : List Image → List Int → Image → Int × Int)
    (resize : Image → Image) (files : List DirFile) :
    Except String (Recognizer × LabelMap) :=
  let a := train_scan resize 0 (sort_files files)
  if a.images.isEmpty then .ok (.untrained, a.label_map)
  else
    match cv_train oracle a.images a.labels with
    | .error e => .error e
    | .ok p => .ok (.trained p, a.label_map)

/-- `self.recognizer.predict(face_roi)` — raises (`cv2.error`) on a
never-trained recogniser. -/
def cv_predict : Recognizer → Image → Except String (Int × Int)
  | .untrained, _ => .error "recognizer untrained"
  | .trained p, img => .ok (p img)

/-- Lines 363-366 of `_camera_loop`: `try: label, conf =
self.recognizer.predict(...)` with `except Exception: label, conf = -1,
1000`. -/
def camera_predict (r : Recognizer) (img : Image) : Int × Int :=
  match cv_predict r img with
  | .ok lc => lc
  | .error _ => (-1, 1000)

/-- Lines 368-371: `name, emp_id = self.label_map.get(label,
("unknown", ""))` and the recognised test `conf < 60`. -/
def camera_label (label_map : LabelMap) (r : Recognizer) (img : Image) :
    (String × String) × Bool :=
  let lc := camera_predict r img
  ((label_map.lookup lc.1).getD ("unknown", ""), decide (lc.2 < 60))

/-- C4: training on an empty sample set returns normally (the guarded
`recogniser.train` call is skipped) with the untrained recogniser and an
empty label map; predicting through the camera loop's `try/except` on
any input then reports the unknown identity and classifies the face as
not recognised — the raw `predict` raises, the pipeline does not. -/
theorem train_empty_predict_unknown
    (oracle : List Image → List Int → Image → Int × Int) (resize : Image → Image) :
    train_recognizer oracle resize [] = .ok (.untrained, [])
    ∧ (∀ img, cv_predict .untrained img = .error "recognizer untrained")
    ∧ (∀ img, camera_predict .untrained img = (-1, 1000))
    ∧ (∀ img, camera_label [] .untrained img = (("unknown", ""), false)) :=
  ⟨rfl, fun _ => rfl, fun _ => rfl, fun _ => rfl⟩

/-- The files the training loop accepts, in sorted-listing order, with
their parsed `(lower name, upper employee id, resized raster)`. -/
def accepted_files (resize : Image → Image) (files : List DirFile) :
    List (String × String × Image) :=
  (sort_files files).filterMap (parse_train_file resize)

/-- Label-map built by numbering a list of accepted files from `c`. -/
def enum_label_map (c : Int) : List (String × String × Image) → LabelMap
  | [] => []
  | e :: es => (c, e.1, e.2.1) :: enum_label_map (c + 1) es

theorem train_scan_label_map (resize : Image → Image) (fs : List DirFile) (c : Int) :
    (train_scan resize c fs).label_map
      = enum_label_map c (fs.filterMap (parse_train_file resize)) := by
  induction fs generalizing c with
  | nil => rfl
  | cons f fs ih =>
      cases hp : parse_train_file resize f with
      | none => simp [train_scan, hp, List.filterMap_cons, ih]
      | some e =>
          obtain ⟨nm, eid, img⟩ := e
          simp [train_scan, hp, List.filterMap_cons, enum_label_map, ih]

theorem train_scan_images (resize : Image → Image) (fs : List DirFile) (c : Int) :
    (train_scan resize c fs).images
      = (fs.filterMap (parse_train_file resize)).map (fun e => e.2.2) := by
  induction fs generalizing c with
  | nil => rfl
  | cons f fs ih =>
      cases hp : parse_train_file resize f with
      | none => simp [train_scan, hp, List.filterMap_cons, ih]
      | some e =>
          obtain ⟨nm, eid, img⟩ := e
          simp [train_scan, hp, List.filterMap_cons, ih]

theorem enum_label_map_length (c : Int) (es : List (String × String × Image)) :
    (enum_label_map c es).length = es.length := by
  induction es generalizing c with
  | nil => rfl
  | cons e es ih => simp [enum_label_map, ih]

theorem enum_label_map_keys (c : Int) (es : List (String × String × Image)) :
    (enum_label_map c es).map Prod.fst
      = (List.range es.length).map (fun i => c + Int.ofNat i) := by
  induction es generalizing c with
  | nil => rfl
  | cons e es ih =>
      simp only [enum_label_map, List.map_cons, List.length_cons,
        List.range_succ_eq_map, ih, List.map_map]
      congr 1
      · simp
      · apply List.map_congr_left
        intro i _
        simp only [Function.comp_apply, Nat.succ_eq_add_one]
        rw [show Int.ofNat (i + 1) = Int.ofNat i + 1 from rfl]
        omega

theorem enum_label_map_lookup (es : List (String × String × Image)) :
    ∀ (c : Int) (i : Nat) (h : i < es.length),
      (enum_label_map c es).lookup (c + (i : Int))
        = some ((es.get ⟨i, h⟩).1, (es.get ⟨i, h⟩).2.1) := by
  induction es with
  | nil =>
      intro c i h
      exact absurd h (by simp)
  | cons e es ih =>
      intro c i h
      cases i with
      | zero =>
          show List.lookup (c + 0) ((c, e.1, e.2.1) :: enum_label_map (c + 1) es) = _
          rw [List.lookup_cons]
          simp
      | succ i =>
          show List.lookup (c + (i + 1 : Nat)) ((c, e.1, e.2.1) :: enum_label_map (c + 1) es) = _
          rw [List.lookup_cons]
          have hne : ((c + ((i : Int) + 1) == c)) = false := by
            simp only [beq_eq_false_iff_ne, ne_eq]
            omega
          have hcast : ((i + 1 : Nat) : Int) = (i : Int) + 1 := by push_cast; ring
          rw [hcast, hne]
          have := ih (c + 1) i (by simpa using h)
          have harg : c + 1 + (i : Int) = c + ((i : Int) + 1) := by ring
          rw [harg] at this
          simpa using this

theorem enum_label_map_countP (c : Int) (es : List (String × String × Image))
    (ident : String × String) :
    (enum_label_map c es).countP (fun x => x.2 == ident)
      = es.countP (fun e => (e.1, e.2.1) == ident) := by
  induction es generalizing c with
  | nil => rfl
  | cons e es ih =>
      simp only [enum_label_map, List.countP_cons, ih]

/-- Extract the published label map of a training result. -/
def trained_label_map : Except String (Recognizer × LabelMap) → LabelMap
  | .ok (_, m) => m
  | .error _ => []

theorem train_recognizer_label_map (oracle : List Image → List Int → Image → Int × Int)
    (resize : Image → Image) (files : List DirFile) :
    trained_label_map (train_recognizer oracle resize files)
      = (train_scan resize 0 (sort_files files)).label_map := by
  unfold train_recognizer
  by_cases h : (train_scan resize 0 (sort_files files)).images.isEmpty
  · simp [h, trained_label_map]
  · simp [h, cv_train, trained_label_map]

/-- C9: training assigns one fresh integer label per accepted sample
file, not one per identity — the label map and the image list have the
same length, the labels are exactly `0..N-1` in sorted-listing order and
pairwise distinct, label `i` is bound to the `(lower-cased name,
upper-cased employee id)` parsed from the `i`-th accepted file, and an
identity with `k` accepted sample files occupies exactly `k` (distinct)
labels. -/
theorem train_labels_fresh_per_file (oracle : List Image → List Int → Image → Int × Int)
    (resize : Image → Image) (files : List DirFile) :
    trained_label_map (train_recognizer oracle resize files)
        = (train_scan resize 0 (sort_files files)).label_map
    ∧ (train_scan resize 0 (sort_files files)).label_map.length
        = (train_scan resize 0 (sort_files files)).images.length
    ∧ (train_scan resize 0 (sort_files files)).label_map.map Prod.fst
        = (List.range (accepted_files resize files).length).map (fun i => Int.ofNat i)
    ∧ ((train_scan resize 0 (sort_files files)).label_map.map Prod.fst).Nodup
    ∧ (∀ (i : Nat) (h : i < (accepted_files resize files).length),
        (train_scan resize 0 (sort_files files)).label_map.lookup (i : Int)
          = some (((accepted_files resize files).get ⟨i, h⟩).1,
              ((accepted_files resize files).get ⟨i, h⟩).2.1))
    ∧ (∀ ident : String × String,
        (train_scan resize 0 (sort_files files)).label_map.countP (fun x => x.2 == ident)
          = (accepted_files resize files).countP (fun e => (e.1, e.2.1) == ident)) := by
  have hkeys : (train_scan resize 0 (sort_files files)).label_map.map Prod.fst
      = (List.range (accepted_files resize files).length).map (fun i => Int.ofNat i) := by
    rw [train_scan_label_map, enum_label_map_keys]
    apply List.map_congr_left
    intro i _
    omega
  refine ⟨train_recognizer_label_map oracle resize files, ?_, hkeys, ?_, ?_, ?_⟩
  · rw [train_scan_label_map, train_scan_images, enum_label_map_length,
      List.length_map]
  · rw [hkeys]
    exact (List.nodup_range _).map (fun a b hab => Int.ofNat.inj hab)
  · intro i h
    rw [train_scan_label_map]
    have := enum_label_map_lookup ((sort_files files).filterMap (parse_train_file resize))
      0 i h
    simpa using this
  · intro ident
    rw [train_scan_label_map]
    exact enum_label_map_countP 0 _ ident

/-- A readable sample file of alice (raster token 7). -/
def file_alice : DirFile := ⟨"alice_E1_000.jpg", some 7⟩

/-- A readable sample file of bob (raster token 8). -/
def file_bob : DirFile := ⟨"bob_E2_000.jpg", some 8⟩

/-- Witness for `train_labels_fresh_per_file` on a two-file directory:
label 0 is bound to alice's file and label 1 to bob's. -/
theorem train_labels_fresh_per_file_witness :
    (train_scan (fun i => i) 0 (sort_files [file_alice, file_bob])).label_map.lookup
        ((0 : Nat) : Int)
      = some (((accepted_files (fun i => i) [file_alice, file_bob]).get
            ⟨0, by decide⟩).1,
          ((accepted_files (fun i => i) [file_alice, file_bob]).get
            ⟨0, by decide⟩).2.1)
    ∧ (train_scan (fun i => i) 0 (sort_files [file_alice, file_bob])).label_map.lookup
        ((1 : Nat) : Int)
      = some (((accepted_files (fun i => i) [file_alice, file_bob]).get
            ⟨1, by decide⟩).1,
          ((accepted_files (fun i => i) [file_alice, file_bob]).get
            ⟨1, by decide⟩).2.1) :=
  ⟨(train_labels_fresh_per_file (fun _ _ _ => (0, 0)) (fun i => i)
      [file_alice, file_bob]).2.2.2.2.1 0 (by decide),
   (train_labels_fresh_per_file (fun _ _ _ => (0, 0)) (fun i => i)
      [file_alice, file_bob]).2.2.2.2.1 1 (by decide)⟩

/-- The glob pattern prefix `f"{name}_{emp_id}_"` of a capture session. -/
def sample_pat (name emp_id : String) : String := name ++ "_" ++ emp_id ++ "_"

/-- Python `fnmatch` of the capture glob `{name}_{emp_id}_*.jpg` (line
678): the file name is the pattern prefix, then any (possibly empty)
run of characters, then `.jpg` — prefix and suffix non-overlapping. -/
def glob_match (name emp_id : String) (fname : String) : Bool :=
  ((sample_pat name emp_id).data.isPrefixOf fname.data)
  && (".jpg".data.isSuffixOf fname.data)
  && decide ((sample_pat name emp_id).length + 4 ≤ fname.length)

/-- The file name written for sequence number `seq` (line 719):
`f"{name}_{emp_id}_{start_index + collected:03d}.jpg"`. -/
def mk_sample_filename (name emp_id : String) (seq : Nat) : String :=
  sample_pat name emp_id ++ fmt03d seq ++ ".jpg"

theorem glob_match_mk (name emp_id : String) (seq : Nat) :
    glob_match name emp_id (mk_sample_filename name emp_id seq) = true := by
  unfold glob_match mk_sample_filename
  rw [Bool.and_eq_true, Bool.and_eq_true]
  refine ⟨⟨?_, ?_⟩, ?_⟩
  · rw [ List.isPrefixOf_iff_prefix, String.data_append, String.data_append,
      List.append_assoc]
    exact List.prefix_append _ _
  · rw [ List.isSuffixOf_iff_suffix, String.data_append, String.data_append]
    exact List.suffix_append _ _
  · rw [decide_eq_true_iff]
    rw [String.length_append, String.length_append]
    have : (".jpg" : String).length = 4 := rfl
    omega

theorem mk_sample_filename_inj_seq (name emp_id : String) (s1 s2 : Nat)
    (h : mk_sample_filename name emp_id s1 = mk_sample_filename name emp_id s2) :
    s1 = s2 := by
  have hd := congrArg String.data h
  unfold mk_sample_filename at hd
  rw [String.data_append, String.data_append, String.data_append,
    String.data_append] at hd
  have h2 := List.append_cancel_right hd
  have h3 := List.append_cancel_left h2
  have h4 := congrArg dec_data h3
  rwa [dec_data_fmt03d, dec_data_fmt03d] at h4

/-- A camera frame as the capture loop consumes it: the grayscale raster
and the Haar-detected face boxes of `detectMultiScale(gray, 1.3, 5)`. -/
structure CamFrame where
  faces : List (Nat × Nat × Nat × Nat)
  gray : Image
deriving DecidableEq

/-- The capture `while` loop of `_capture_samples` (lines 695-734) over a
finite stream of drained frames.  A frame with no detected face only
surfaces a hint and consumes no sequence number; a frame with at least
one face writes `{name}_{emp_id}_{start_index + collected:03d}.jpg` and
increments `collected`.  Returns the file names written, in order; the
loop stops once `collected` reaches `count_target`. -/
def capture_loop (name emp_id : String) (start_index count_target : Nat) :
    List CamFrame → Nat → List String
  | [], _ => []
  | f :: fs, collected =>
      if collected < count_target then
        if f.faces.isEmpty then
          capture_loop name emp_id start_index count_target fs collected
        else
          mk_sample_filename name emp_id (start_index + collected)
            :: capture_loop name emp_id start_index count_target fs (collected + 1)
      else []

/-- Outcome reported at the end of `_capture_samples`. -/
inductive CaptureResult : Type
  | aborted (msg : String)
  | completed (updating : Bool)
deriving DecidableEq

/-- Lines 666-670: resolve the display name of an existing employee id
from the current label map (first matching entry wins). -/
def resolve_name (label_map : LabelMap) (emp_id : String) : Option String :=
  label_map.findSome? (fun e => if e.2.2 = emp_id then some e.2.1 else none)

/-- `SAMPLES_PER_USER: int = 10`. -/
def SAMPLES_PER_USER : Nat := 10

/-- Result record of a capture session: the final directory listing, the
files written by this session, the reported outcome, and whether the
retrain step ran. -/
structure CaptureOutcome where
  store : List String
  written : List String
  result : CaptureResult
  retrained : Bool
deriving DecidableEq

/-- `_capture_samples` (lines 654-744) over a finite frame stream.  The
sample directory is modelled by its file-name listing; `glob.glob`
counts the `{name}_{emp_id}_*.jpg` matches once, before the loop
(`start_index = len(existing_files)`), and every write appends its file
name.  `sample_count if sample_count else SAMPLES_PER_USER` follows
Python truthiness, so a passed `0` also selects the default 10.  When
neither the argument nor the label map yields a name, the function
aborts with an error before the countdown, writing nothing and not
retraining; otherwise the loop runs and the recogniser is retrained. -/
def capture_samples (label_map : LabelMap) (store : List String)
    (name? : Option String) (emp_id : String) (updating : Bool)
    (sample_count : Option Nat) (frames : List CamFrame) : CaptureOutcome :=
  match name?.orElse (fun _ => resolve_name label_map emp_id) with
  | none =>
      ⟨store, [],
        .aborted "No existing face found for this ID – please register first.",
        false⟩
  | some name =>
      let count_target := match sample_count with
        | some k => if k = 0 then SAMPLES_PER_USER else k
        | none => SAMPLES_PER_USER
      let start_index := (store.filter (glob_match name emp_id)).length
      let written := capture_loop name emp_id start_index count_target frames 0
      ⟨store ++ written, written, .completed updating, true⟩

theorem capture_loop_written (name emp_id : String) (start count_target : Nat)
    (frames : List CamFrame) : ∀ collected,
    capture_loop name emp_id start count_target frames collected
      = (List.range' (start + collected)
            (capture_loop name emp_id start count_target frames collected).length).map
          (mk_sample_filename name emp_id) := by
  induction frames with
  | nil => intro c; rfl
  | cons f fs ih =>
      intro c
      by_cases hc : c < count_target
      · by_cases hf : f.faces.isEmpty
        · simp only [capture_loop, if_pos hc, hf, if_true]
          exact ih c
        · simp only [capture_loop, if_pos hc, hf, if_false, Bool.false_eq_true,
            List.length_cons, List.range'_succ, List.map_cons]
          congr 1
          have := ih (c + 1)
          rw [show start + c + 1 = start + (c + 1) by omega]
          exact this
      · simp [capture_loop, hc]

/-- C3: when the existing `{name}_{emp_id}_*.jpg` files are exactly the
sequence numbers `0..n-1`, a capture session computes `start_index = n`
once, writes its `j`-th sample at sequence number `n + j` (count of
existing samples plus samples captured so far) — strictly increasing —
never collides with or overwrites a file of a prior session, appends its
files to the store, and re-establishes the same invariant with
`n + written` files, so numbering stays fresh across sessions. -/
theorem capture_session_fresh_sequence (label_map : LabelMap) (store : List String)
    (name emp_id : String) (updating : Bool) (sample_count : Option Nat)
    (frames : List CamFrame) (n : Nat)
    (hFilter : store.filter (glob_match name emp_id)
      = (List.range n).map (mk_sample_filename name emp_id)) :
    (capture_samples label_map store (some name) emp_id updating sample_count
          frames).written
        = (List.range (capture_samples label_map store (some name) emp_id updating
              sample_count frames).written.length).map
            (fun j => mk_sample_filename name emp_id (n + j))
    ∧ (∀ f ∈ (capture_samples label_map store (some name) emp_id updating
          sample_count frames).written, f ∉ store)
    ∧ (capture_samples label_map store (some name) emp_id updating sample_count
          frames).store
        = store ++ (capture_samples label_map store (some name) emp_id updating
            sample_count frames).written
    ∧ (capture_samples label_map store (some name) emp_id updating sample_count
          frames).store.filter (glob_match name emp_id)
        = (List.range (n + (capture_samples label_map store (some name) emp_id
              updating sample_count frames).written.length)).map
            (mk_sample_filename name emp_id) := by
  have hstart : (store.filter (glob_match name emp_id)).length = n := by
    rw [hFilter, List.length_map, List.length_range]
  have hred : capture_samples label_map store (some name) emp_id updating
        sample_count frames
      = ⟨store ++ capture_loop name emp_id
            (store.filter (glob_match name emp_id)).length
            (match sample_count with
              | some k => if k = 0 then SAMPLES_PER_USER else k
              | none => SAMPLES_PER_USER) frames 0,
          capture_loop name emp_id (store.filter (glob_match name emp_id)).length
            (match sample_count with
              | some k => if k = 0 then SAMPLES_PER_USER else k
              | none => SAMPLES_PER_USER) frames 0,
          .completed updating, true⟩ := rfl
  simp only [hred, hstart]
  set tgt := (match sample_count with
    | some k => if k = 0 then SAMPLES_PER_USER else k
    | none => SAMPLES_PER_USER) with htgt
  set w := capture_loop name emp_id n tgt frames 0 with hwdef
  have hw0 : w = (List.range' n w.length).map (mk_sample_filename name emp_id) := by
    have := capture_loop_written name emp_id n tgt frames 0
    rw [Nat.add_zero] at this
    exact this
  have hw1 : w = (List.range w.length).map
      (fun j => mk_sample_filename name emp_id (n + j)) := by
    conv_lhs => rw [hw0]
    rw [List.range'_eq_map_range, List.map_map]
    exact List.map_congr_left (fun a _ => rfl)
  have hnotin : ∀ f ∈ w, f ∉ store := by
    intro f hf hmem
    rw [hw1] at hf
    rw [List.mem_map] at hf
    obtain ⟨j, hj, rfl⟩ := hf
    rw [List.mem_range] at hj
    have hfil : mk_sample_filename name emp_id (n + j)
        ∈ store.filter (glob_match name emp_id) :=
      List.mem_filter.mpr ⟨hmem, glob_match_mk name emp_id (n + j)⟩
    rw [hFilter, List.mem_map] at hfil
    obtain ⟨i, hi, heq⟩ := hfil
    rw [List.mem_range] at hi
    have := mk_sample_filename_inj_seq name emp_id i (n + j) heq
    omega
  refine ⟨hw1, hnotin, trivial, ?_⟩
  rw [List.filter_append, hFilter]
  have hwfilter : w.filter (glob_match name emp_id) = w := by
    rw [List.filter_eq_self]
    intro a ha
    rw [hw1, List.mem_map] at ha
    obtain ⟨j, hj, rfl⟩ := ha
    exact glob_match_mk name emp_id (n + j)
  rw [hwfilter]
  conv_lhs => rw [hw0]
  rw [List.range_eq_range', ← List.map_append]
  have happ : List.range' 0 n ++ List.range' n w.length
      = List.range' 0 (w.length + n) := by
    have := List.range'_append 0 n w.length 1
    simpa using this
  rw [happ, ← List.range_eq_range', Nat.add_comm w.length n]

/-- Ten frames, each with one detected face. -/
def face_frames : List CamFrame :=
  List.replicate 10 ⟨[(0, 0, 5, 5)], 3⟩

/-- Witness for `capture_session_fresh_sequence`: existing samples
`alice_E1_000.jpg` and `alice_E1_001.jpg` (n = 2), an update session of
5 captures — the written files continue at 002. -/
theorem capture_session_fresh_sequence_witness :
    (capture_samples [] ["alice_E1_000.jpg", "alice_E1_001.jpg"] (some "alice")
          "E1" true (some 5) face_frames).written
        = (List.range (capture_samples [] ["alice_E1_000.jpg", "alice_E1_001.jpg"]
              (some "alice") "E1" true (some 5) face_frames).written.length).map
            (fun j => mk_sample_filename "alice" "E1" (2 + j))
    ∧ (∀ f ∈ (capture_samples [] ["alice_E1_000.jpg", "alice_E1_001.jpg"]
          (some "alice") "E1" true (some 5) face_frames).written,
        f ∉ ["alice_E1_000.jpg", "alice_E1_001.jpg"])
    ∧ (capture_samples [] ["alice_E1_000.jpg", "alice_E1_001.jpg"] (some "alice")
          "E1" true (some 5) face_frames).store
        = ["alice_E1_000.jpg", "alice_E1_001.jpg"]
          ++ (capture_samples [] ["alice_E1_000.jpg", "alice_E1_001.jpg"]
              (some "alice") "E1" true (some 5) face_frames).written
    ∧ (capture_samples [] ["alice_E1_000.jpg", "alice_E1_001.jpg"] (some "alice")
          "E1" true (some 5) face_frames).store.filter (glob_match "alice" "E1")
        = (List.range (2 + (capture_samples [] ["alice_E1_000.jpg", "alice_E1_001.jpg"]
              (some "alice") "E1" true (some 5) face_frames).written.length)).map
            (mk_sample_filename "alice" "E1") :=
  capture_session_fresh_sequence [] ["alice_E1_000.jpg", "alice_E1_001.jpg"]
    "alice" "E1" true (some 5) face_frames 2 (by decide)

/-- C10: starting a capture for an employee id with no supplied name and
no matching entry in the current label map aborts before the countdown:
the error is reported, the store is untouched, nothing is written, and
no retrain happens. -/
theorem capture_unknown_id_aborts (label_map : LabelMap) (store : List String)
    (emp_id : String) (updating : Bool) (sample_count : Option Nat)
    (frames : List CamFrame)
    (hnone : ∀ e ∈ label_map, e.2.2 ≠ emp_id) :
    capture_samples label_map store none emp_id updating sample_count frames
      = ⟨store, [],
          .aborted "No existing face found for this ID – please register first.",
          false⟩ := by
  have hres : resolve_name label_map emp_id = none := by
    rw [resolve_name, List.findSome?_eq_none_iff]
    intro e he
    simp only [ite_eq_right_iff]
    intro hcontra
    exact absurd hcontra (hnone e he)
  show capture_samples label_map store none emp_id updating sample_count frames = _
  unfold capture_samples
  have horelse : (none : Option String).orElse
      (fun _ => resolve_name label_map emp_id) = none := by
    show resolve_name label_map emp_id = none
    exact hres
  rw [horelse]

/-- Witness for `capture_unknown_id_aborts`: a label map containing only
alice, update requested for the unknown id `E2`. -/
theorem capture_unknown_id_aborts_witness :
    capture_samples [(0, ("alice", "E1"))] ["alice_E1_000.jpg"] none "E2" true
        (some 5) face_frames
      = ⟨["alice_E1_000.jpg"], [],
          .aborted "No existing face found for this ID – please register first.",
          false⟩ :=
  capture_unknown_id_aborts [(0, ("alice", "E1"))] ["alice_E1_000.jpg"] "E2" true
    (some 5) face_frames (by decide)

/-- The shared pair the camera loop reads: `self.recognizer` (identified
by the sorted listing it was trained on — the opaque LBPH state is
determined by its training set) and `self.label_map`. -/
structure ModelRef where
  recognizer_files : List DirFile
  label_map : LabelMap
deriving DecidableEq

/-- The label map `_train_recognizer` derives from a directory listing
(it depends only on the file names, not on the raster resize step). -/
def label_map_of (files : List DirFile) : LabelMap :=
  (train_scan (fun i => i) 0 (sort_files files)).label_map

/-- Interleaving events: line 738 `self.recognizer, self.label_map =
self._train_recognizer()` executes as TWO bytecode-level attribute
stores, `recognizer` first (`wModel`) and `label_map` second (`wMap`);
the camera thread reads `self.recognizer` for `predict` (`rModel`) and,
separately, `self.label_map` for the name lookup (`rMap`).  CPython may
switch threads between any two of these bytecodes. -/
inductive SwapEv : Type
  | wModel
  | wMap
  | rModel
  | rMap
deriving DecidableEq, BEq

/-- What the reader observed: the recogniser and the label map it
actually paired in one detection cycle. -/
structure SwapObs where
  model_seen : Option (List DirFile)
  map_seen : Option LabelMap
deriving DecidableEq

/-- Effect of one interleaving event on the shared pair and the reader's
observation, for a retrain over `newFiles`. -/
def swap_step (newFiles : List DirFile) :
    SwapEv → ModelRef × SwapObs → ModelRef × SwapObs
  | .wModel, (st, o) => ({ st with recognizer_files := newFiles }, o)
  | .wMap, (st, o) => ({ st with label_map := label_map_of newFiles }, o)
  | .rModel, (st, o) => (st, { o with model_seen := some st.recognizer_files })
  | .rMap, (st, o) => (st, { o with map_seen := some st.label_map })

/-- Run an interleaving schedule. -/
def run_swap (newFiles : List DirFile) :
    List SwapEv → ModelRef × SwapObs → ModelRef × SwapObs
  | [], so => so
  | e :: es, so => run_swap newFiles es (swap_step newFiles e so)

/-- A schedule is a valid interleaving when each thread's events occur
in program order: `wModel` before `wMap`, `rModel` before `rMap`. -/
def valid_interleaving (sched : List SwapEv) : Bool :=
  (sched.filter (fun e => e == SwapEv.wModel || e == SwapEv.wMap)
      == [SwapEv.wModel, SwapEv.wMap])
  && (sched.filter (fun e => e == SwapEv.rModel || e == SwapEv.rMap)
      == [SwapEv.rModel, SwapEv.rMap])

/-- C2 fails on the code: the `(recognizer, label_map)` replacement is
not atomic.  In the valid interleaving `wModel, rModel, rMap, wMap` —
reader runs between the writer's two attribute stores — starting from a
model trained on alice's file alone and retraining over alice and bob,
the reader observes the NEW recogniser paired with the STALE map: the
pair is not self-consistent (the stale map differs from the mapping
paired with the new model), and the new model's label 1 (bob) is absent
from the mapping the reader holds, so bob would be reported unknown. -/
theorem swap_not_atomic :
    valid_interleaving [SwapEv.wModel, SwapEv.rModel, SwapEv.rMap, SwapEv.wMap]
        = true
    ∧ (run_swap [file_alice, file_bob]
          [SwapEv.wModel, SwapEv.rModel, SwapEv.rMap, SwapEv.wMap]
          (⟨[file_alice], label_map_of [file_alice]⟩, ⟨none, none⟩)).2.model_seen
        = some [file_alice, file_bob]
    ∧ (run_swap [file_alice, file_bob]
          [SwapEv.wModel, SwapEv.rModel, SwapEv.rMap, SwapEv.wMap]
          (⟨[file_alice], label_map_of [file_alice]⟩, ⟨none, none⟩)).2.map_seen
        = some (label_map_of [file_alice])
    ∧ label_map_of [file_alice] ≠ label_map_of [file_alice, file_bob]
    ∧ (label_map_of [file_alice, file_bob]).lookup 1 = some ("bob", "E2")
    ∧ (label_map_of [file_alice]).lookup 1 = none := by
  refine ⟨by decide, by decide, by decide, by decide, by decide, by decide⟩
